import Mathlib

set_option maxRecDepth 2000

/-!
# Verification model of the go-phper-json decoder

A shallow embedding of `decode.go` from the `phperjson` package: the
PHP-flavoured, type-juggling JSON decode engine.  JSON values (as produced by
`json.Decoder` with `UseNumber()`) are modelled by `JValue`; decode targets by
a type descriptor `GoType` paired with a current value `GoVal`; the recursive
`Decoder.decode` method by the fuelled function `decode` (fuel only bounds the
recursion depth; every claim is settled at explicit, sufficient fuel).
Machine integers are modelled as `Int`/`Nat` with explicit range checks, and
the float64/float32 values produced by `strconv.ParseFloat` and
`math/big.Float` are modelled as exact rationals obtained by correct rounding.
The model fixes a 64-bit platform (`int`/`uint` are 64 bits wide), matching
the repository's test suite.  Go runtime panics (out-of-range `reflect` slice
indexing) are modelled as a distinguished `panicked` outcome.
-/

namespace Phper

/-- JSON values as handed to `Decoder.decode`: the result of
`json.Decoder.Decode` into `interface{}` with `UseNumber()` active, i.e.
`nil`, `bool`, `json.Number` (the literal text), `string`, `[]interface{}`
and `map[string]interface{}`.  A Go map is modelled as an association list in
iteration order (keys are unique; iteration order of a Go map is arbitrary,
and theorems are stated relative to the list order). -/
inductive JValue where
  | null
  | jbool (b : Bool)
  | num (s : String)
  | str (s : String)
  | arr (xs : List JValue)
  | obj (kvs : List (String × JValue))

/-- Signed integer kinds (`reflect.Int`..`reflect.Int64`); `int` is 64 bits
wide on the modelled platform. -/
inductive IntKind where
  | i | i8 | i16 | i32 | i64
deriving DecidableEq, Repr

/-- Unsigned integer kinds (`reflect.Uint`..`reflect.Uintptr`); `uint` and
`uintptr` are 64 bits wide on the modelled platform. -/
inductive UintKind where
  | u | u8 | u16 | u32 | u64 | uptr
deriving DecidableEq, Repr

/-- Float kinds (`reflect.Float32`, `reflect.Float64`). -/
inductive FloatKind where
  | f32 | f64
deriving DecidableEq, Repr

def IntKind.bits : IntKind → Nat
  | .i => 64
  | .i8 => 8
  | .i16 => 16
  | .i32 => 32
  | .i64 => 64

def UintKind.bits : UintKind → Nat
  | .u => 64
  | .u8 => 8
  | .u16 => 16
  | .u32 => 32
  | .u64 => 64
  | .uptr => 64

def FloatKind.bits : FloatKind → Nat
  | .f32 => 32
  | .f64 => 64

/-- `reflect.Value.OverflowInt` for a destination of kind `k`. -/
def intOverflows (k : IntKind) (n : Int) : Bool :=
  n < -(2 ^ (k.bits - 1) : Int) ∨ n > (2 ^ (k.bits - 1) : Int) - 1

/-- `reflect.Value.OverflowUint` for a destination of kind `k`. -/
def uintOverflows (k : UintKind) (n : Nat) : Bool :=
  n > 2 ^ k.bits - 1

/-- A resolved struct field as used by `Decoder.decode`: the entries of the
`cachedTypeFields` list that the decode loops consult (`ff.name` and
`f.index`).  The index path traverses (possibly embedded) substructures. -/
structure GoField where
  name : String
  index : List Nat
deriving DecidableEq, Repr

/-- Static shape of a decode target: a `reflect.Kind` together with the
element/key/field shapes the decoder inspects.  `gstruct` carries the struct
type name, the resolved field list and the positional layout of the raw
fields that `f.index` paths walk.  `gtextUnm` is a kind whose pointer
implements `encoding.TextUnmarshaler`. -/
inductive GoType where
  | gbool
  | gstring
  | gint (k : IntKind)
  | guint (k : UintKind)
  | gfloat (k : FloatKind)
  | gslice (elem : GoType)
  | garray (n : Nat) (elem : GoType)
  | gmap (key elem : GoType)
  | gstruct (name : String) (fields : List GoField) (layout : List GoType)
  | giface
  | gptr (elem : GoType)
  | gtextUnm

def GoType.isPtrKind : GoType → Bool
  | .gptr _ => true
  | _ => false

def GoType.isStringKind : GoType → Bool
  | .gstring => true
  | _ => false

def GoType.isIfaceKind : GoType → Bool
  | .giface => true
  | _ => false

def GoType.isUint8Kind : GoType → Bool
  | .guint .u8 => true
  | _ => false

/-- The scalar kinds of the coercion matrix (Bool, Int, Uint, Float, String). -/
def GoType.isScalarKind : GoType → Bool
  | .gbool => true
  | .gstring => true
  | .gint _ => true
  | .guint _ => true
  | .gfloat _ => true
  | _ => false

/-- Whether a map key type passes the eligibility check of `Decoder.decode`:
string kind, an integer kind, or a type whose pointer implements
`encoding.TextUnmarshaler`. -/
def mapKeyEligible : GoType → Bool
  | .gstring => true
  | .gint _ => true
  | .guint _ => true
  | .gtextUnm => true
  | _ => false

/-- An exact rational `n / d` with positive denominator, kept unnormalized so
that every operation is plain `Int`/`Nat` arithmetic (kernel-evaluable).
Used to model the exact values of decimal literals and of the binary floats
produced by `strconv.ParseFloat` / `math/big.Float`. -/
structure QV where
  n : Int
  d : Nat
deriving DecidableEq, Repr

/-- Values stored in an `interface{}` slot created by the decoder: booleans,
float64 results of `convertNumber`, `json.Number` literals, strings, and raw
`[]interface{}` / `map[string]interface{}` trees. -/
inductive IVal where
  | inull
  | ibool (b : Bool)
  | inum (s : String)
  | ifloat (q : QV)
  | istr (s : String)
  | iarr (xs : List IVal)
  | iobj (kvs : List (String × IVal))

/-- A Go value of the corresponding `GoType`.  A slice carries its length,
capacity and backing store (`store.length = cap`; indices `≥ len` are the
hidden spare capacity).  A map is an association list of key/value pairs.
`vtextUnm` records the last text stored by the modelled `UnmarshalText`. -/
inductive GoVal where
  | vbool (b : Bool)
  | vint (k : IntKind) (n : Int)
  | vuint (k : UintKind) (n : Nat)
  | vfloat (k : FloatKind) (q : QV)
  | vstr (s : String)
  | vslice (len cap : Nat) (store : List GoVal)
  | varray (store : List GoVal)
  | vmap (entries : List (GoVal × GoVal))
  | vstruct (fields : List GoVal)
  | viface (v : Option IVal)
  | vptr (v : Option GoVal)
  | vtextUnm (s : String)

mutual
/-- `reflect.Zero` of a type. -/
def zeroVal : GoType → GoVal
  | .gbool => .vbool false
  | .gstring => .vstr ""
  | .gint k => .vint k 0
  | .guint k => .vuint k 0
  | .gfloat k => .vfloat k ⟨0, 1⟩
  | .gslice _ => .vslice 0 0 []
  | .garray n t => .varray (List.replicate n (zeroVal t))
  | .gmap _ _ => .vmap []
  | .gstruct _ _ layout => .vstruct (zeroVals layout)
  | .giface => .viface none
  | .gptr _ => .vptr none
  | .gtextUnm => .vtextUnm ""

def zeroVals : List GoType → List GoVal
  | [] => []
  | t :: ts => zeroVal t :: zeroVals ts
end

/-- Go `==` on the map-key values that the decoder produces (string, integer
or text-unmarshaler keys); composite keys never arise from `decode`. -/
def keyBEq : GoVal → GoVal → Bool
  | .vstr a, .vstr b => a == b
  | .vint ka a, .vint kb b => ka == kb && a == b
  | .vuint ka a, .vuint kb b => ka == kb && a == b
  | .vtextUnm a, .vtextUnm b => a == b
  | _, _ => false

/-- `reflect.Value.SetMapIndex`: replace the value at an equal key, or add the
entry. -/
def setMapIndex (entries : List (GoVal × GoVal)) (k v : GoVal) :
    List (GoVal × GoVal) :=
  match entries with
  | [] => [(k, v)]
  | (k0, v0) :: rest =>
    if keyBEq k0 k then (k, v) :: rest else (k0, v0) :: setMapIndex rest k v

/-! ## Number parsing (`strconv`, `math/big`)

Numeric literals are parsed exactly; the binary float values returned by
`strconv.ParseFloat` and `math/big.Float` are obtained by correct rounding of
the exact decimal value (round to nearest, ties to even, for `strconv`;
round toward zero at 64 significant bits for the `big.ParseFloat` call in
`parseInt`/`parseUint`).  The special literal forms `Inf`/`NaN`, hex
mantissas and digit-separating underscores accepted by `strconv.ParseFloat`
are outside the model: they cannot occur in JSON number literals. -/

/-- Exponentiation by squaring (fuelled), so that kernel/elaborator reduction
of the large powers of two in the float model stays shallow. -/
def powSqFuel : Nat → Nat → Nat → Nat
  | 0, _, _ => 1
  | fuel + 1, b, e =>
    if e = 0 then 1
    else
      let h := powSqFuel fuel (b * b) (e / 2)
      if e % 2 == 1 then b * h else h

def pow2Big (e : Nat) : Nat := powSqFuel e 2 e

def pow10Big (e : Nat) : Nat := powSqFuel e 10 e

def QV.neg (a : QV) : QV := ⟨-a.n, a.d⟩

def QV.abs (a : QV) : QV := ⟨if a.n < 0 then -a.n else a.n, a.d⟩

/-- `a < b` on exact rationals (cross-multiplication; denominators positive). -/
def QV.blt (a b : QV) : Bool := a.n * (b.d : Int) < b.n * (a.d : Int)

/-- `a ≤ b` on exact rationals. -/
def QV.ble (a b : QV) : Bool := a.n * (b.d : Int) ≤ b.n * (a.d : Int)

def QV.isZero (a : QV) : Bool := a.n == 0

def QV.ofInt (k : Int) : QV := ⟨k, 1⟩

/-- `a * 2 ^ e` for an integer exponent. -/
def QV.mulPow2 (a : QV) (e : Int) : QV :=
  if 0 ≤ e then ⟨a.n * (pow2Big e.toNat : Int), a.d⟩
  else ⟨a.n, a.d * pow2Big (-e).toNat⟩

/-- `a * 10 ^ e` for an integer exponent. -/
def QV.mulPow10 (a : QV) (e : Int) : QV :=
  if 0 ≤ e then ⟨a.n * (pow10Big e.toNat : Int), a.d⟩
  else ⟨a.n, a.d * pow10Big (-e).toNat⟩

/-- Floor of the rational. -/
def QV.floorQ (a : QV) : Int := Int.fdiv a.n a.d

/-- Truncation toward zero (Go's float-to-integer conversion). -/
def QV.truncQ (a : QV) : Int := Int.tdiv a.n a.d

/-- Whether the rational is an integer. -/
def QV.isInt (a : QV) : Bool := Int.tmod a.n a.d == 0

def digitsToNat : List Char → Nat → Option Nat
  | [], acc => some acc
  | c :: cs, acc =>
    if c.isDigit then digitsToNat cs (acc * 10 + (c.toNat - 48)) else none

/-- Parse a nonempty run of decimal digits. -/
def parseDigits (cs : List Char) : Option Nat :=
  if cs.isEmpty then none else digitsToNat cs 0

/-- `strconv.ParseInt(s, 10, bits)`: optional sign, decimal digits, range
check; `none` on any syntax or range error. -/
def goParseInt (s : String) (bits : Nat) : Option Int :=
  let cs := s.toList
  let signDigits : Bool × List Char :=
    match cs with
    | '+' :: rest => (false, rest)
    | '-' :: rest => (true, rest)
    | rest => (false, rest)
  match parseDigits signDigits.2 with
  | none => none
  | some m =>
    let n : Int := if signDigits.1 then -(m : Int) else (m : Int)
    if n < -(2 ^ (bits - 1) : Int) ∨ n > (2 ^ (bits - 1) : Int) - 1 then none
    else some n

/-- `strconv.ParseUint(s, 10, bits)`: no sign allowed. -/
def goParseUint (s : String) (bits : Nat) : Option Nat :=
  match parseDigits s.toList with
  | none => none
  | some m => if m > 2 ^ bits - 1 then none else some m

def takeDigits : List Char → List Char × List Char
  | [] => ([], [])
  | c :: cs =>
    if c.isDigit then
      let dr := takeDigits cs
      (c :: dr.1, dr.2)
    else ([], c :: cs)

def digitsVal (ds : List Char) : Nat :=
  ds.foldl (fun a c => a * 10 + (c.toNat - 48)) 0

/-- Parse a decimal floating-point literal
(`[+|-] digits [. digits] [(e|E) [+|-] digits]`, at least one mantissa digit)
to its exact rational value. -/
def parseDecimal (s : String) : Option QV :=
  let cs := s.toList
  let signRest : Bool × List Char :=
    match cs with
    | '+' :: r => (false, r)
    | '-' :: r => (true, r)
    | r => (false, r)
  let ipRest := takeDigits signRest.2
  let fpRest : List Char × List Char :=
    match ipRest.2 with
    | '.' :: r => takeDigits r
    | r => ([], r)
  if ipRest.1.isEmpty ∧ fpRest.1.isEmpty then none else
  let expRest : Bool × Bool × List Char × List Char :=
    match fpRest.2 with
    | 'e' :: '+' :: r2 => let dr := takeDigits r2; (true, false, dr.1, dr.2)
    | 'e' :: '-' :: r2 => let dr := takeDigits r2; (true, true, dr.1, dr.2)
    | 'e' :: r2 => let dr := takeDigits r2; (true, false, dr.1, dr.2)
    | 'E' :: '+' :: r2 => let dr := takeDigits r2; (true, false, dr.1, dr.2)
    | 'E' :: '-' :: r2 => let dr := takeDigits r2; (true, true, dr.1, dr.2)
    | 'E' :: r2 => let dr := takeDigits r2; (true, false, dr.1, dr.2)
    | r => (false, false, [], r)
  match expRest with
  | (hasExp, eNeg, eDigits, rest) =>
    if hasExp ∧ eDigits.isEmpty then none else
    if ¬ rest.isEmpty then none else
    let m : Nat := digitsVal ipRest.1 * 10 ^ fpRest.1.length + digitsVal fpRest.1
    let e : Int :=
      (if eNeg then -(digitsVal eDigits : Int) else (digitsVal eDigits : Int))
        - (fpRest.1.length : Int)
    some ((QV.ofInt (if signRest.1 then -(m : Int) else (m : Int))).mulPow10 e)

/-- ⌊log₂ n⌋ by fuelled halving (0 for `n ≤ 1`). -/
def log2Fuel : Nat → Nat → Nat
  | 0, _ => 0
  | fuel + 1, n => if n ≤ 1 then 0 else log2Fuel fuel (n / 2) + 1

/-- ⌊log₂ n⌋ in 64-bit chunks, keeping the reduction depth proportional to
the bit length divided by 64. -/
def log2ChunkFuel : Nat → Nat → Nat
  | 0, _ => 0
  | fuel + 1, n =>
    if n < 18446744073709551616 then log2Fuel 64 n
    else 64 + log2ChunkFuel fuel (n / 18446744073709551616)

def natLog2 (n : Nat) : Nat := log2ChunkFuel n n

/-- Least `k` with `2 ^ k ≥ m` (for `m ≥ 1`). -/
def ceilLog2Nat (m : Nat) : Nat :=
  if m ≤ 1 then 0 else natLog2 (m - 1) + 1

/-- For `a > 0`: the unique `e` with `2 ^ e ≤ a < 2 ^ (e+1)`. -/
def qlog2 (a : QV) : Int :=
  if (a.d : Int) ≤ a.n then (natLog2 (Int.tdiv a.n a.d).toNat : Int)
  else -(ceilLog2Nat (Int.tdiv ((a.d : Int) + a.n - 1) a.n).toNat : Int)

/-- Round a rational to the nearest integer, ties to even. -/
def rndNearEven (q : QV) : Int :=
  let f := q.floorQ
  let rn : Int := q.n - f * q.d
  if rn * 2 < (q.d : Int) then f
  else if rn * 2 > (q.d : Int) then f + 1
  else if Int.tmod f 2 == 0 then f else f + 1

/-- Round a positive rational to `prec` significant bits, nearest/ties-even,
with the exponent of the least significant bit floored at `emin` (subnormal
range). -/
def roundPosNE (prec : Nat) (emin : Int) (a : QV) : QV :=
  let e := qlog2 a
  let scale : Int := max (e - ((prec : Int) - 1)) emin
  (QV.ofInt (rndNearEven (a.mulPow2 (-scale)))).mulPow2 scale

/-- IEEE-style rounding of an exact rational: `none` models overflow to an
infinity (`maxE` is the first power of two that overflows); gradual underflow
to zero is not an error, matching `strconv.ParseFloat`. -/
def roundFiniteNE (prec : Nat) (emin maxE : Int) (q : QV) : Option QV :=
  if q.isZero then some (QV.ofInt 0) else
  let r := roundPosNE prec emin q.abs
  if ((QV.ofInt 1).mulPow2 maxE).ble r then none
  else some (if q.n < 0 then r.neg else r)

/-- `strconv.ParseFloat(s, bits)` restricted to decimal literals: the exact
decimal value correctly rounded to binary32/binary64; `none` models a syntax
error or overflow (`ErrRange` with an infinite value). -/
def goParseFloat (s : String) (bits : Nat) : Option QV :=
  match parseDecimal s with
  | none => none
  | some q =>
    if bits = 32 then roundFiniteNE 24 (-149) 128 q
    else roundFiniteNE 53 (-1074) 1024 q

/-- Round a positive rational toward zero at `prec` significant bits. -/
def roundPosToZero (prec : Nat) (a : QV) : QV :=
  let e := qlog2 a
  let scale : Int := e - ((prec : Int) - 1)
  (QV.ofInt ((a.mulPow2 (-scale)).floorQ)).mulPow2 scale

/-- `big.ParseFloat(s, 10, 64, big.ToZero)`: the exact decimal value rounded
toward zero to 64 significant bits (the `big.Float` exponent range is far too
wide to matter here). -/
def bigParseFloatToZero64 (s : String) : Option QV :=
  match parseDecimal s with
  | none => none
  | some q =>
    if q.isZero then some (QV.ofInt 0)
    else if q.n < 0 then some ((roundPosToZero 64 q.neg).neg)
    else some (roundPosToZero 64 q)

/-- `(*big.Float).Int64` keeping only an `Exact` accuracy (as `parseInt`
does): the truncation toward zero when it is lossless and in range. -/
def bigFloatInt64Exact (q : QV) : Option Int :=
  if q.blt (QV.ofInt (-(2 ^ 63))) ∨ (QV.ofInt (2 ^ 63 - 1)).blt q then none
  else if q.isInt then some q.truncQ else none

/-- `(*big.Float).Uint64` keeping only an `Exact` accuracy. -/
def bigFloatUint64Exact (q : QV) : Option Nat :=
  if q.blt (QV.ofInt 0) ∨ (QV.ofInt (2 ^ 64 - 1)).blt q then none
  else if q.isInt then some q.truncQ.toNat else none

/-- Go's `int64(f)` for a float64 value `f`: truncation toward zero; an
out-of-range value yields the amd64 "integer indefinite" `-2^63`
(the result is implementation-defined in Go; the model fixes amd64). -/
def f64toInt64 (f : QV) : Int :=
  let n := f.truncQ
  if n < -(2 ^ 63 : Int) ∨ (2 ^ 63 : Int) - 1 < n then -(2 ^ 63) else n

/-- Go's `uint64(f)` for a float64 value `f`; out of range wraps to 0 on
amd64 for the single reachable case `f = 2^64`. -/
def f64toUint64 (f : QV) : Nat :=
  let n := f.truncQ
  if n < 0 ∨ (2 ^ 64 : Int) - 1 < n then 0 else n.toNat

/-- Model of `parseInt` (decode.go): parse a number literal for a signed
integer destination of kind `k`.  First `strconv.ParseInt`; for an `int64`
destination the fallback reparses via `big.ParseFloat` at 64-bit precision
with `big.ToZero` and keeps only an `Exact` `Int64`; for the other kinds the
fallback goes through float64, with the range guard
`f < math.MinInt64 || f > math.MaxInt64` (whose right constant rounds to
`2^63` as a float64). -/
def parseInt (s : String) (k : IntKind) : Option Int :=
  match goParseInt s 64 with
  | some n => if intOverflows k n then none else some n
  | none =>
    match k with
    | .i64 =>
      match bigParseFloatToZero64 s with
      | none => none
      | some f => bigFloatInt64Exact f
    | _ =>
      match goParseFloat s 64 with
      | none => none
      | some f =>
        if f.blt (QV.ofInt (-(2 ^ 63))) ∨ (QV.ofInt (2 ^ 63)).blt f then none
        else
          let n := f64toInt64 f
          if intOverflows k n then none else some n

/-- Model of `parseUint` (decode.go), the unsigned analogue of `parseInt`;
the float64 range guard is `f < 0 || f > math.MaxUint64`, whose right
constant rounds to `2^64` as a float64. -/
def parseUint (s : String) (k : UintKind) : Option Nat :=
  match goParseUint s 64 with
  | some n => if uintOverflows k n then none else some n
  | none =>
    match k with
    | .u64 =>
      match bigParseFloatToZero64 s with
      | none => none
      | some f => bigFloatUint64Exact f
    | _ =>
      match goParseFloat s 64 with
      | none => none
      | some f =>
        if f.blt (QV.ofInt 0) ∨ (QV.ofInt (2 ^ 64)).blt f then none
        else
          let n := f64toUint64 f
          if uintOverflows k n then none else some n

/-- `math.MaxFloat32` / `math.MaxFloat64` as exact rationals. -/
def maxFloatQ (k : FloatKind) : QV :=
  match k with
  | .f32 => QV.ofInt (((pow2Big 24 - 1) * pow2Big 104 : Nat) : Int)
  | .f64 => QV.ofInt (((pow2Big 53 - 1) * pow2Big 971 : Nat) : Int)

/-- `reflect.Value.OverflowFloat`: `|f|` exceeds the largest finite value of
the destination kind. -/
def floatOverflows (k : FloatKind) (f : QV) : Bool :=
  (maxFloatQ k).blt f.abs

/-! ## Decoder state, errors and helper loops -/

/-- The decoder configuration (`Decoder.useNumber`,
`Decoder.disallowUnknownFields`). -/
structure DecCfg where
  useNumber : Bool
  disallowUnknownFields : Bool
deriving DecidableEq, Repr

/-- `Decoder.errorContext`: the (struct name, field name) pair used to
annotate the next type error. -/
structure ErrCtx where
  strct : String
  fld : String
deriving DecidableEq, Repr

/-- Decode errors: `*json.UnmarshalTypeError` (with its `Value`, `Type`,
`Struct` and `Field` data), the `fmt.Errorf` unknown-field error of strict
mode, and a base64 `CorruptInputError`. -/
inductive DecErr where
  | typeMismatch (value : String) (ty : GoType) (strct fld : String)
  | unknownField (key : String)
  | base64Error

/-- `Decoder.withErrorContext`: if the error context is nonempty, copy it
into an `UnmarshalTypeError`; other errors pass through unchanged. -/
def withErrCtx (ctx : ErrCtx) : DecErr → DecErr
  | .typeMismatch val t s f =>
    if ctx.strct ≠ "" ∨ ctx.fld ≠ "" then .typeMismatch val t ctx.strct ctx.fld
    else .typeMismatch val t s f
  | e => e

/-- Outcome of one `decode` call on a target location: the new value on
success; the error together with the (possibly partially mutated) value on an
ordinary error return; or a Go runtime panic (out-of-range `reflect`
indexing), which also leaves a partially mutated value behind. -/
inductive DOut where
  | ok (v : GoVal)
  | err (e : DecErr) (v : GoVal)
  | panicked (msg : String) (v : GoVal)

/-- Shape of the recursive decode function threaded through the helper
loops: context, source value, target type, target value; `none` is fuel
exhaustion (never a behaviour of the Go code). -/
abbrev DecFn := ErrCtx → JValue → GoType → GoVal → Option (ErrCtx × DOut)

/-- Rewrap the value inside a decode outcome (the caller stores the decoded
sub-location back into its own value). -/
def mapDOut (g : GoVal → GoVal) : Option (ErrCtx × DOut) → Option (ErrCtx × DOut)
  | none => none
  | some (c, .ok v) => some (c, .ok (g v))
  | some (c, .err e v) => some (c, .err e (g v))
  | some (c, .panicked m v) => some (c, .panicked m (g v))

mutual
/-- Raw injection of a decoded `interface{}` tree (numbers kept as
`json.Number` literal text), as stored by `out.Set(reflect.ValueOf(v))`. -/
def jvalToIVal : JValue → IVal
  | .null => .inull
  | .jbool b => .ibool b
  | .num s => .inum s
  | .str s => .istr s
  | .arr xs => .iarr (jvalsToIVals xs)
  | .obj kvs => .iobj (jobjToIObj kvs)

def jvalsToIVals : List JValue → List IVal
  | [] => []
  | x :: xs => jvalToIVal x :: jvalsToIVals xs

def jobjToIObj : List (String × JValue) → List (String × IVal)
  | [] => []
  | kv :: xs => (kv.1, jvalToIVal kv.2) :: jobjToIObj xs
end

/-- A Go `interface{}` slot holding the raw value `j` (`nil` for JSON null). -/
def ifaceOfJVal (j : JValue) : GoVal :=
  match j with
  | .null => .viface none
  | _ => .viface (some (jvalToIVal j))

mutual
/-- `Decoder.convertNumber2Float64`: convert every number literal in the
tree to its float64 value (error on unparsable/overflowing literals). -/
def convNum2F64 : JValue → Except DecErr IVal
  | .null => .ok .inull
  | .jbool b => .ok (.ibool b)
  | .str s => .ok (.istr s)
  | .num s =>
    match goParseFloat s 64 with
    | none => .error (.typeMismatch ("number " ++ s) (.gfloat .f64) "" "")
    | some f => .ok (.ifloat f)
  | .arr xs =>
    match convNum2F64List xs with
    | .error e => .error e
    | .ok ys => .ok (.iarr ys)
  | .obj kvs =>
    match convNum2F64Obj kvs with
    | .error e => .error e
    | .ok ys => .ok (.iobj ys)

def convNum2F64List : List JValue → Except DecErr (List IVal)
  | [] => .ok []
  | x :: xs =>
    match convNum2F64 x with
    | .error e => .error e
    | .ok y =>
      match convNum2F64List xs with
      | .error e => .error e
      | .ok ys => .ok (y :: ys)

def convNum2F64Obj : List (String × JValue) → Except DecErr (List (String × IVal))
  | [] => .ok []
  | kv :: xs =>
    match convNum2F64 kv.2 with
    | .error e => .error e
    | .ok y =>
      match convNum2F64Obj xs with
      | .error e => .error e
      | .ok ys => .ok ((kv.1, y) :: ys)
end

/-- `Decoder.convertNumber`: a number literal for an `interface{}` target is
kept as a `json.Number` under `UseNumber`, else parsed as float64. -/
def convertNumber (cfg : DecCfg) (s : String) : Except DecErr IVal :=
  if cfg.useNumber then .ok (.inum s)
  else
    match goParseFloat s 64 with
    | none => .error (.typeMismatch ("number " ++ s) (.gfloat .f64) "" "")
    | some f => .ok (.ifloat f)

def charLower (c : Char) : Char :=
  if 65 ≤ c.toNat ∧ c.toNat ≤ 90 then Char.ofNat (c.toNat + 32) else c

/-- Modelled from the spec: the per-field `equalFold` function comes from
`fold.go`, which is not among the sources; the spec specifies a
"case-insensitive fallback match", modelled as ASCII case folding. -/
def foldEq (a b : String) : Bool :=
  a.data.map charLower == b.data.map charLower

/-- The struct-field matching loop of `Decoder.decode`: an exact name match
stops the loop at once; a case-insensitive match is recorded only while no
candidate is recorded yet, and the loop keeps going, so any later exact match
overrides a recorded case-insensitive candidate. -/
def selectFieldLoop : List GoField → String → Option GoField → Option GoField
  | [], _, f => f
  | ff :: rest, key, f =>
    if ff.name = key then some ff
    else if f.isNone ∧ foldEq ff.name key then selectFieldLoop rest key (some ff)
    else selectFieldLoop rest key f

def selectField (fields : List GoField) (key : String) : Option GoField :=
  selectFieldLoop fields key none

/-- The field lookup of the array-into-struct branch: exact name match only. -/
def selectFieldExact : List GoField → String → Option GoField
  | [], _ => none
  | ff :: rest, key => if ff.name = key then some ff else selectFieldExact rest key

/-- Walk a resolved field's `index` path through the struct value, exactly as
the loop in `Decoder.decode`: per path element, one pointer dereference (a
nil pointer is allocated to the zero value) when the current location is a
pointer, then the positional field access.  Returns the field's type, its
current value and a setter rebuilding the root value; `none` models an
ill-formed path (impossible for paths produced by the field resolver). -/
def walkPath : GoType → GoVal → List Nat → Option (GoType × GoVal × (GoVal → GoVal))
  | t, v, [] => some (t, v, fun x => x)
  | .gptr te, v, i :: rest =>
    let inner : GoVal :=
      match v with
      | .vptr (some w) => w
      | _ => zeroVal te
    match te, inner with
    | .gstruct _ _ layout, .vstruct vals =>
      match layout.get? i, vals.get? i with
      | some ti, some vi =>
        match walkPath ti vi rest with
        | some tvs =>
          some (tvs.1, tvs.2.1,
            fun x => .vptr (some (.vstruct (vals.set i (tvs.2.2 x)))))
        | none => none
      | _, _ => none
    | _, _ => none
  | .gstruct _ _ layout, .vstruct vals, i :: rest =>
    match layout.get? i, vals.get? i with
    | some ti, some vi =>
      match walkPath ti vi rest with
      | some tvs => some (tvs.1, tvs.2.1, fun x => .vstruct (vals.set i (tvs.2.2 x)))
      | none => none
    | _, _ => none
  | _, _, _ :: _ => none

def b64Index (c : Char) : Option Nat :=
  if 65 ≤ c.toNat ∧ c.toNat ≤ 90 then some (c.toNat - 65)
  else if 97 ≤ c.toNat ∧ c.toNat ≤ 122 then some (c.toNat - 97 + 26)
  else if 48 ≤ c.toNat ∧ c.toNat ≤ 57 then some (c.toNat - 48 + 52)
  else if c = '+' then some 62
  else if c = '/' then some 63
  else none

/-- `base64.StdEncoding.DecodeString`: padded groups of four characters. -/
def b64Groups : List Char → Option (List Nat)
  | [] => some []
  | c1 :: c2 :: c3 :: c4 :: rest =>
    match b64Index c1, b64Index c2 with
    | some a, some b =>
      if c3 = '=' ∧ c4 = '=' ∧ rest = [] then some [a * 4 + b / 16]
      else if c4 = '=' ∧ rest = [] then
        match b64Index c3 with
        | some c => some [a * 4 + b / 16, b % 16 * 16 + c / 4]
        | none => none
      else
        match b64Index c3, b64Index c4, b64Groups rest with
        | some c, some e, some tail =>
          some ((a * 4 + b / 16) :: (b % 16 * 16 + c / 4) :: (c % 4 * 64 + e) :: tail)
        | _, _, _ => none
    | _, _ => none
  | _ => none

def b64DecodeString (s : String) : Option (List Nat) := b64Groups s.toList

/-! ## The decode loops -/

/-- The scalar-into-slice wrap of `Decoder.decode`: if the capacity is 0,
allocate a fresh one-element slice; `SetLen(1)`; decode the scalar into
index 0 (overwriting the existing element when capacity is reused). -/
def scalarIntoSlice (d : DecFn) (ctx : ErrCtx) (src : JValue) (te : GoType)
    (cap : Nat) (store : List GoVal) : Option (ErrCtx × DOut) :=
  let fresh : Nat × List GoVal :=
    if cap = 0 then (1, [zeroVal te]) else (cap, store)
  match fresh.2.get? 0 with
  | none => some (ctx, .panicked "reflect: slice index out of range"
      (.vslice 1 fresh.1 fresh.2))
  | some e0 => mapDOut (fun w => .vslice 1 fresh.1 (fresh.2.set 0 w))
      (d ctx src te e0)

/-- The element loop of array-into-slice: decode `xs` into indices `0..`,
propagating errors with the partially written store. -/
def sliceSeqLoop (d : DecFn) (te : GoType) (n cap : Nat) :
    ErrCtx → Nat → List JValue → List GoVal → Option (ErrCtx × DOut)
  | ctx, _, [], store => some (ctx, .ok (.vslice n cap store))
  | ctx, i, x :: xs, store =>
    match store.get? i with
    | none => some (ctx, .panicked "reflect: slice index out of range"
        (.vslice n cap store))
    | some cur =>
      match d ctx x te cur with
      | none => none
      | some (c2, .ok w) => sliceSeqLoop d te n cap c2 (i + 1) xs (store.set i w)
      | some (c2, .err e w) => some (c2, .err e (.vslice n cap (store.set i w)))
      | some (c2, .panicked m w) =>
        some (c2, .panicked m (.vslice n cap (store.set i w)))

/-- The element loop of array-into-fixed-array: decode the first
`min xs.length total` elements in place (the caller passes `xs` already
truncated), then zero the remaining indices. -/
def arrayElemLoop (d : DecFn) (te : GoType) (total : Nat) :
    ErrCtx → Nat → List JValue → List GoVal → Option (ErrCtx × DOut)
  | ctx, i, [], store =>
    some (ctx, .ok (.varray (store.take i ++ List.replicate (total - i) (zeroVal te))))
  | ctx, i, x :: xs, store =>
    match store.get? i with
    | none => some (ctx, .panicked "reflect: array index out of range" (.varray store))
    | some cur =>
      match d ctx x te cur with
      | none => none
      | some (c2, .ok w) => arrayElemLoop d te total c2 (i + 1) xs (store.set i w)
      | some (c2, .err e w) => some (c2, .err e (.varray (store.set i w)))
      | some (c2, .panicked m w) => some (c2, .panicked m (.varray (store.set i w)))

/-- Key conversion for object-into-map: string kinds convert the key text,
text-unmarshaler keys decode it via `UnmarshalText`, integer kinds parse it
at 64 bits and check the key type's width.  Unreachable for other kinds
(eligibility is checked first). -/
def objMapKey (kt : GoType) (key : String) : Except DecErr GoVal :=
  match kt with
  | .gstring => .ok (.vstr key)
  | .gtextUnm => .ok (.vtextUnm key)
  | .gint k =>
    match goParseInt key 64 with
    | none => .error (.typeMismatch ("number " ++ key) kt "" "")
    | some n =>
      if intOverflows k n then .error (.typeMismatch ("number " ++ key) kt "" "")
      else .ok (.vint k n)
  | .guint k =>
    match goParseUint key 64 with
    | none => .error (.typeMismatch ("number " ++ key) kt "" "")
    | some n =>
      if uintOverflows k n then .error (.typeMismatch ("number " ++ key) kt "" "")
      else .ok (.vuint k n)
  | _ => .ok (.vstr key)

/-- Key conversion for array-into-map: the key is the stringified element
index; integer key kinds range-check the index itself (`Value: "number"`
without the key text, as in the source). -/
def arrMapKey (kt : GoType) (i : Nat) : Except DecErr GoVal :=
  match kt with
  | .gstring => .ok (.vstr (Nat.repr i))
  | .gtextUnm => .ok (.vtextUnm (Nat.repr i))
  | .gint k =>
    if intOverflows k (i : Int) then .error (.typeMismatch "number" kt "" "")
    else .ok (.vint k (i : Int))
  | .guint k =>
    if uintOverflows k i then .error (.typeMismatch "number" kt "" "")
    else .ok (.vuint k i)
  | _ => .ok (.vstr (Nat.repr i))

/-- The entry loop of object-into-map: each value is decoded into a fresh
zero scratch location first, then the key is converted and the pair
inserted; an error aborts with the entries inserted so far. -/
def objMapLoop (d : DecFn) (kt vt : GoType) :
    ErrCtx → List (String × JValue) → List (GoVal × GoVal) → Option (ErrCtx × DOut)
  | ctx, [], es => some (ctx, .ok (.vmap es))
  | ctx, (key, vv) :: rest, es =>
    match d ctx vv vt (zeroVal vt) with
    | none => none
    | some (c2, .err e _) => some (c2, .err e (.vmap es))
    | some (c2, .panicked m _) => some (c2, .panicked m (.vmap es))
    | some (c2, .ok w) =>
      match objMapKey kt key with
      | .error e => some (c2, .err (withErrCtx c2 e) (.vmap es))
      | .ok kv => objMapLoop d kt vt c2 rest (setMapIndex es kv w)

/-- The entry loop of array-into-map (keys are stringified indices). -/
def arrMapLoop (d : DecFn) (kt vt : GoType) :
    ErrCtx → Nat → List JValue → List (GoVal × GoVal) → Option (ErrCtx × DOut)
  | ctx, _, [], es => some (ctx, .ok (.vmap es))
  | ctx, i, vv :: rest, es =>
    match d ctx vv vt (zeroVal vt) with
    | none => none
    | some (c2, .err e _) => some (c2, .err e (.vmap es))
    | some (c2, .panicked m _) => some (c2, .panicked m (.vmap es))
    | some (c2, .ok w) =>
      match arrMapKey kt i with
      | .error e => some (c2, .err (withErrCtx c2 e) (.vmap es))
      | .ok kv => arrMapLoop d kt vt c2 (i + 1) rest (setMapIndex es kv w)

/-- The entry loop of object-into-struct: resolve the field (exact match
first, case-insensitive fallback), walk its index path, set the error
context to (struct name, field name) around the field's decode, and clear
the context afterwards — also on an error return, and also for unmatched
keys (whose decode into an invalid `reflect.Value` is a no-op); in strict
mode an unmatched key returns the unknown-field error at once. -/
def objStructLoop (d : DecFn) (cfg : DecCfg) (sname : String)
    (fields : List GoField) (st : GoType) :
    ErrCtx → List (String × JValue) → GoVal → Option (ErrCtx × DOut)
  | ctx, [], v => some (ctx, .ok v)
  | ctx, (key, value) :: rest, v =>
    match selectField fields key with
    | some f =>
      match walkPath st v f.index with
      | none => some (ctx, .panicked "reflect: invalid field path" v)
      | some tvs =>
        match d { strct := sname, fld := f.name } value tvs.1 tvs.2.1 with
        | none => none
        | some (_, .ok w) =>
          objStructLoop d cfg sname fields st { strct := "", fld := "" } rest
            (tvs.2.2 w)
        | some (_, .err e w) =>
          some ({ strct := "", fld := "" }, .err e (tvs.2.2 w))
        | some (c2, .panicked m w) => some (c2, .panicked m (tvs.2.2 w))
    | none =>
      if cfg.disallowUnknownFields then some (ctx, .err (.unknownField key) v)
      else objStructLoop d cfg sname fields st { strct := "", fld := "" } rest v

/-- The entry loop of array-into-struct: keys are stringified indices and
only exact field-name matches count; the error-context discipline is the
same as for object-into-struct. -/
def arrStructLoop (d : DecFn) (cfg : DecCfg) (sname : String)
    (fields : List GoField) (st : GoType) :
    ErrCtx → Nat → List JValue → GoVal → Option (ErrCtx × DOut)
  | ctx, _, [], v => some (ctx, .ok v)
  | ctx, i, value :: rest, v =>
    match selectFieldExact fields (Nat.repr i) with
    | some f =>
      match walkPath st v f.index with
      | none => some (ctx, .panicked "reflect: invalid field path" v)
      | some tvs =>
        match d { strct := sname, fld := f.name } value tvs.1 tvs.2.1 with
        | none => none
        | some (_, .ok w) =>
          arrStructLoop d cfg sname fields st { strct := "", fld := "" } (i + 1)
            rest (tvs.2.2 w)
        | some (_, .err e w) =>
          some ({ strct := "", fld := "" }, .err e (tvs.2.2 w))
        | some (c2, .panicked m w) => some (c2, .panicked m (tvs.2.2 w))
    | none =>
      if cfg.disallowUnknownFields then
        some (ctx, .err (.unknownField (Nat.repr i)) v)
      else
        arrStructLoop d cfg sname fields st { strct := "", fld := "" } (i + 1) rest v

/-- The key-checking pass of object-into-slice: every key must parse via
`strconv.ParseInt(key, 10, 0)`; the running maximum starts at `-1`. -/
def sliceMaxLoop : List (String × JValue) → Int → Option Int
  | [], m => some m
  | (key, _) :: rest, m =>
    match goParseInt key 64 with
    | none => none
    | some i => sliceMaxLoop rest (if i > m then i else m)

/-- The zero-filling loop of object-into-slice (`out.Index(i).Set(zero)` for
`i = 0..max`): `reflect.Value.Index` panics as soon as `i` reaches the
slice's current length, leaving the prefix zeroed. -/
def zeroFillLoop (z : GoVal) (len : Nat) :
    Nat → Nat → List GoVal → Except (List GoVal) (List GoVal)
  | _, 0, store => .ok store
  | i, c + 1, store =>
    if i < len then zeroFillLoop z len (i + 1) c (store.set i z)
    else .error store

/-- The writing pass of object-into-slice: re-parse each key (the error was
already checked) and decode the value into that index; `reflect.Value.Index`
panics for an index outside `0..n-1` (in particular for a negative parsed
key). -/
def objSliceWriteLoop (d : DecFn) (te : GoType) (n cap : Nat) :
    ErrCtx → List (String × JValue) → List GoVal → Option (ErrCtx × DOut)
  | ctx, [], store => some (ctx, .ok (.vslice n cap store))
  | ctx, (key, vv) :: rest, store =>
    let i : Int := (goParseInt key 64).getD 0
    if 0 ≤ i ∧ i < (n : Int) then
      match store.get? i.toNat with
      | none => some (ctx, .panicked "reflect: slice index out of range"
          (.vslice n cap store))
      | some cur =>
        match d ctx vv te cur with
        | none => none
        | some (c2, .ok w) => objSliceWriteLoop d te n cap c2 rest (store.set i.toNat w)
        | some (c2, .err e w) =>
          some (c2, .err e (.vslice n cap (store.set i.toNat w)))
        | some (c2, .panicked m w) =>
          some (c2, .panicked m (.vslice n cap (store.set i.toNat w)))
    else
      some (ctx, .panicked "reflect: slice index out of range" (.vslice n cap store))

/-- Object-into-slice (the "forced object" array branch): check all keys and
find the maximum index; grow (fresh allocation) when `max < 0` or the
required length exceeds the capacity, else zero-fill indices `0..max` in
place; `SetLen(max+1)`; then decode each entry at its parsed index. -/
def objSliceBranch (d : DecFn) (te : GoType) (ctx : ErrCtx)
    (kvs : List (String × JValue)) (len cap : Nat) (store : List GoVal) :
    Option (ErrCtx × DOut) :=
  match sliceMaxLoop kvs (-1) with
  | none => some (ctx, .err (withErrCtx ctx (.typeMismatch "number" .gstring "" ""))
      (.vslice len cap store))
  | some m =>
    let n : Nat := (m + 1).toNat
    if m < 0 ∨ (n : Int) > (cap : Int) then
      objSliceWriteLoop d te n n ctx kvs (List.replicate n (zeroVal te))
    else
      match zeroFillLoop (zeroVal te) len 0 n store with
      | .error zs => some (ctx, .panicked "reflect: slice index out of range"
          (.vslice len cap zs))
      | .ok store1 => objSliceWriteLoop d te n cap ctx kvs store1

/-- The entry loop of object-into-fixed-array: per entry, parse the key
(error on non-integers), silently drop indices at/past the array length, and
decode in place; a negative parsed key panics in `reflect.Value.Index`. -/
def objArrayLoop (d : DecFn) (te : GoType) :
    ErrCtx → List (String × JValue) → List GoVal → Option (ErrCtx × DOut)
  | ctx, [], store => some (ctx, .ok (.varray store))
  | ctx, (key, vv) :: rest, store =>
    match goParseInt key 64 with
    | none => some (ctx, .err (withErrCtx ctx (.typeMismatch "number" .gstring "" ""))
        (.varray store))
    | some i =>
      if i ≥ (store.length : Int) then objArrayLoop d te ctx rest store
      else if i < 0 then
        some (ctx, .panicked "reflect: array index out of range" (.varray store))
      else
        match store.get? i.toNat with
        | none => some (ctx, .panicked "reflect: array index out of range" (.varray store))
        | some cur =>
          match d ctx vv te cur with
          | none => none
          | some (c2, .ok w) => objArrayLoop d te c2 rest (store.set i.toNat w)
          | some (c2, .err e w) => some (c2, .err e (.varray (store.set i.toNat w)))
          | some (c2, .panicked m w) =>
            some (c2, .panicked m (.varray (store.set i.toNat w)))

/-! ## The decode engine -/

/-- One unfolding of `Decoder.decode` (`d` is the next recursion level).

Pointer targets model `indirect`: when decoding null, the walk stops at a
pointer whose element kind is not itself a pointer, or which is nil, so that
it can be zeroed; otherwise the pointer is dereferenced (allocating a nil
pointer).  A `gtextUnm` target models `indirect` finding an
`encoding.TextUnmarshaler` (except when decoding null): a string source is
delivered to `UnmarshalText`, every other non-null source is an
`UnmarshalTypeError` as in the `ut != nil` switch.  `Unmarshaler`
(`UnmarshalJSON`) targets are outside the model's type universe.  Interface
targets always have `NumMethod() == 0` in the model.  The remainder is the
source-kind × destination-kind coercion matrix, branch for branch. -/
def decodeStep (cfg : DecCfg) (d : DecFn) : DecFn := fun ctx input t v =>
  match t with
  | .gptr te =>
    if (input matches JValue.null) ∧ ((v matches GoVal.vptr none) ∨ ¬ te.isPtrKind) then
      some (ctx, .ok (.vptr none))
    else
      let inner : GoVal :=
        match v with
        | .vptr (some w) => w
        | _ => zeroVal te
      mapDOut (fun w => .vptr (some w)) (d ctx input te inner)
  | .gtextUnm =>
    match input with
    | .null => some (ctx, .ok v)
    | .jbool _ => some (ctx, .err (withErrCtx ctx (.typeMismatch "bool" t "" "")) v)
    | .num _ => some (ctx, .err (withErrCtx ctx (.typeMismatch "number" t "" "")) v)
    | .str s => some (ctx, .ok (.vtextUnm s))
    | .arr _ => some (ctx, .err (withErrCtx ctx (.typeMismatch "" t "" "")) v)
    | .obj _ => some (ctx, .err (withErrCtx ctx (.typeMismatch "" t "" "")) v)
  | _ =>
    match input with
    | .null =>
      match t with
      | .giface => some (ctx, .ok (.viface none))
      | .gmap _ _ => some (ctx, .ok (.vmap []))
      | .gslice _ => some (ctx, .ok (.vslice 0 0 []))
      | _ => some (ctx, .ok v)
    | .jbool b =>
      match t with
      | .gbool => some (ctx, .ok (.vbool b))
      | .giface => some (ctx, .ok (.viface (some (.ibool b))))
      | .gstring => some (ctx, .ok (.vstr (if b then "1" else "")))
      | .gint k => some (ctx, .ok (.vint k (if b then 1 else 0)))
      | .guint k => some (ctx, .ok (.vuint k (if b then 1 else 0)))
      | .gfloat k => some (ctx, .ok (.vfloat k ⟨if b then 1 else 0, 1⟩))
      | .gslice te =>
        match v with
        | .vslice _ cap store => scalarIntoSlice d ctx (.jbool b) te cap store
        | _ => some (ctx, .panicked "reflect: call of Index on non-slice value" v)
      | .gmap kt vt => d ctx (.obj [("0", .jbool b)]) (.gmap kt vt) v
      | .gstruct sn fs ly => d ctx (.obj [("0", .jbool b)]) (.gstruct sn fs ly) v
      | _ => some (ctx, .err (withErrCtx ctx (.typeMismatch "bool" t "" "")) v)
    | .num s =>
      match t with
      | .gstring => some (ctx, .ok (.vstr s))
      | .giface =>
        match convertNumber cfg s with
        | .error e => some (ctx, .err e v)
        | .ok iv => some (ctx, .ok (.viface (some iv)))
      | .gint k =>
        match parseInt s k with
        | none =>
          some (ctx, .err (withErrCtx ctx (.typeMismatch ("number " ++ s) t "" "")) v)
        | some n => some (ctx, .ok (.vint k n))
      | .guint k =>
        match parseUint s k with
        | none =>
          some (ctx, .err (withErrCtx ctx (.typeMismatch ("number " ++ s) t "" "")) v)
        | some n => some (ctx, .ok (.vuint k n))
      | .gfloat k =>
        match goParseFloat s k.bits with
        | none =>
          some (ctx, .err (withErrCtx ctx (.typeMismatch ("number " ++ s) t "" "")) v)
        | some f =>
          if floatOverflows k f then
            some (ctx, .err (withErrCtx ctx (.typeMismatch ("number " ++ s) t "" "")) v)
          else some (ctx, .ok (.vfloat k f))
      | .gbool =>
        match goParseFloat s 64 with
        | some f => some (ctx, .ok (.vbool (¬ f.isZero)))
        | none => some (ctx, .ok (.vbool true))
      | .gslice te =>
        match v with
        | .vslice _ cap store => scalarIntoSlice d ctx (.num s) te cap store
        | _ => some (ctx, .panicked "reflect: call of Index on non-slice value" v)
      | .gmap kt vt => d ctx (.obj [("0", .num s)]) (.gmap kt vt) v
      | .gstruct sn fs ly => d ctx (.obj [("0", .num s)]) (.gstruct sn fs ly) v
      | _ => some (ctx, .err (withErrCtx ctx (.typeMismatch "number" t "" "")) v)
    | .str sv =>
      match t with
      | .gstring => some (ctx, .ok (.vstr sv))
      | .giface => some (ctx, .ok (.viface (some (.istr sv))))
      | .gint k =>
        if sv = "" then some (ctx, .ok (.vint k 0))
        else
          match parseInt sv k with
          | none => some (ctx, .err (withErrCtx ctx (.typeMismatch "string" t "" "")) v)
          | some n => some (ctx, .ok (.vint k n))
      | .guint k =>
        if sv = "" then some (ctx, .ok (.vuint k 0))
        else
          match parseUint sv k with
          | none => some (ctx, .err (withErrCtx ctx (.typeMismatch "string" t "" "")) v)
          | some n => some (ctx, .ok (.vuint k n))
      | .gfloat k =>
        if sv = "" then some (ctx, .ok (.vfloat k ⟨0, 1⟩))
        else
          match goParseFloat sv k.bits with
          | none => some (ctx, .err (withErrCtx ctx (.typeMismatch "string" t "" "")) v)
          | some f =>
            if floatOverflows k f then
              some (ctx, .err (withErrCtx ctx (.typeMismatch "string" t "" "")) v)
            else some (ctx, .ok (.vfloat k f))
      | .gbool => some (ctx, .ok (.vbool (¬ (sv = "" ∨ sv = "0"))))
      | .gslice te =>
        if te.isUint8Kind then
          match b64DecodeString sv with
          | none => some (ctx, .err .base64Error v)
          | some bs =>
            some (ctx, .ok (.vslice bs.length bs.length (bs.map fun b => .vuint .u8 b)))
        else
          match v with
          | .vslice _ cap store => scalarIntoSlice d ctx (.str sv) te cap store
          | _ => some (ctx, .panicked "reflect: call of Index on non-slice value" v)
      | .gmap kt vt => d ctx (.obj [("0", .str sv)]) (.gmap kt vt) v
      | .gstruct sn fs ly => d ctx (.obj [("0", .str sv)]) (.gstruct sn fs ly) v
      | _ => some (ctx, .err (withErrCtx ctx (.typeMismatch "string" t "" "")) v)
    | .arr xs =>
      match t with
      | .giface => some (ctx, .ok (.viface (some (.iarr (jvalsToIVals xs)))))
      | .garray _ te =>
        match v with
        | .varray store =>
          arrayElemLoop d te store.length ctx 0 (xs.take store.length) store
        | _ => some (ctx, .panicked "reflect: call of Index on non-array value" v)
      | .gslice te =>
        match v with
        | .vslice _ cap store =>
          if xs.isEmpty then some (ctx, .ok (.vslice 0 0 []))
          else
            let n := xs.length
            let grown : Nat × List GoVal :=
              if n > cap then (n, List.replicate n (zeroVal te)) else (cap, store)
            sliceSeqLoop d te n grown.1 ctx 0 xs grown.2
        | _ => some (ctx, .panicked "reflect: call of Index on non-slice value" v)
      | .gbool => some (ctx, .ok (.vbool (¬ xs.isEmpty)))
      | .gmap kt vt =>
        if ¬ mapKeyEligible kt then
          some (ctx, .err (withErrCtx ctx (.typeMismatch "object" t "" "")) v)
        else
          match v with
          | .vmap es => arrMapLoop d kt vt ctx 0 xs es
          | _ => some (ctx, .panicked "reflect: call of SetMapIndex on non-map value" v)
      | .gstruct sname fields layout =>
        arrStructLoop d cfg sname fields (.gstruct sname fields layout) ctx 0 xs v
      | _ => some (ctx, .err (withErrCtx ctx (.typeMismatch "array" t "" "")) v)
    | .obj kvs =>
      match t with
      | .giface =>
        if cfg.useNumber then
          some (ctx, .ok (.viface (some (.iobj (jobjToIObj kvs)))))
        else
          match convNum2F64 (.obj kvs) with
          | .error e => some (ctx, .err e v)
          | .ok iv => some (ctx, .ok (.viface (some iv)))
      | .gmap kt vt =>
        match v with
        | .vmap es =>
          if kt.isStringKind ∧ vt.isIfaceKind ∧ es.isEmpty then
            some (ctx, .ok (.vmap (kvs.map fun kv => (.vstr kv.1, ifaceOfJVal kv.2))))
          else if ¬ mapKeyEligible kt then
            some (ctx, .err (withErrCtx ctx (.typeMismatch "object" t "" "")) v)
          else objMapLoop d kt vt ctx kvs es
        | _ => some (ctx, .panicked "reflect: call of SetMapIndex on non-map value" v)
      | .gstruct sname fields layout =>
        objStructLoop d cfg sname fields (.gstruct sname fields layout) ctx kvs v
      | .gbool => some (ctx, .ok (.vbool (¬ kvs.isEmpty)))
      | .gslice te =>
        match v with
        | .vslice len cap store => objSliceBranch d te ctx kvs len cap store
        | _ => some (ctx, .panicked "reflect: call of Index on non-slice value" v)
      | .garray _ te =>
        match v with
        | .varray store =>
          objArrayLoop d te ctx kvs (List.replicate store.length (zeroVal te))
        | _ => some (ctx, .panicked "reflect: call of Index on non-array value" v)
      | _ => some (ctx, .err (withErrCtx ctx (.typeMismatch "object" t "" "")) v)

/-- `Decoder.decode`, fuelled: each recursion level consumes one unit of
fuel; `none` is fuel exhaustion, never a behaviour of the Go code. -/
def decode (cfg : DecCfg) : Nat → DecFn
  | 0 => fun _ _ _ _ => none
  | fuel + 1 => decodeStep cfg (decode cfg fuel)

def cfg0 : DecCfg := ⟨false, false⟩

def ctx0 : ErrCtx := ⟨"", ""⟩

/-! ## The top-level Decoder.Decode -/

/-- A `Decoder` with its pending input stream: each item is the result of one
`json.Decoder.Decode` call — a parsed value or a parse error. -/
structure GoDecoder where
  cfg : DecCfg
  stream : List (Except String JValue)

/-- Outcome of `Decoder.Decode`. -/
inductive TopOut where
  | ok
  | parseError (msg : String)
  | invalidUnmarshal
  | decodeError (e : DecErr)
  | panicked (msg : String)

/-- Model of `Decoder.Decode`: the next value is read and parsed from the
stream FIRST (`dec.dec.Decode(&iv)`); only then is the target validated
(`rv.Kind() != reflect.Ptr || rv.IsNil()`).  `target = none` models a nil or
non-pointer argument; `some (t, v)` models a non-nil pointer whose pointee
has type `t` and current value `v`.  Returns the remaining stream, the final
pointee value, and the outcome. -/
def DecoderDecode (fuel : Nat) (d : GoDecoder)
    (target : Option (GoType × GoVal)) :
    List (Except String JValue) × Option GoVal × TopOut :=
  match d.stream with
  | [] => ([], target.map Prod.snd, .parseError "EOF")
  | .error msg :: rest => (rest, target.map Prod.snd, .parseError msg)
  | .ok iv :: rest =>
    match target with
    | none => (rest, none, .invalidUnmarshal)
    | some tv =>
      match decode d.cfg fuel ⟨"", ""⟩ iv tv.1 tv.2 with
      | none => (rest, some tv.2, .panicked "model: out of fuel")
      | some (_, .ok w) => (rest, some w, .ok)
      | some (_, .err e w) => (rest, some w, .decodeError e)
      | some (_, .panicked m w) => (rest, some w, .panicked m)

/-! ## Spec-side tables for amended claims -/

/-- The Bool-coercion table of the amended falsy rule: Null keeps the prior
value; a Number is falsy exactly when its literal parses (as float64) to
zero; a String is falsy exactly for `""` and `"0"`; an Array/Object is falsy
exactly when empty. -/
def boolCoerce (b0 : Bool) : JValue → Bool
  | .null => b0
  | .jbool b => b
  | .num s =>
    match goParseFloat s 64 with
    | some f => ¬ f.isZero
    | none => true
  | .str s => ¬ (s = "" ∨ s = "0")
  | .arr xs => ¬ xs.isEmpty
  | .obj kvs => ¬ kvs.isEmpty

/-- Whether a `JValue` is a scalar source (Bool, Number or String). -/
def JValue.isScalar : JValue → Bool
  | .jbool _ => true
  | .num _ => true
  | .str _ => true
  | _ => false

/-- Whether a `JValue` is a String source. -/
def JValue.isStr : JValue → Bool
  | .str _ => true
  | _ => false

/-! ## Theorems -/

theorem decode_zero (cfg : DecCfg) : decode cfg 0 = fun _ _ _ _ => none := rfl

theorem decode_succ (cfg : DecCfg) (fuel : Nat) :
    decode cfg (fuel + 1) = decodeStep cfg (decode cfg fuel) := rfl

/-- C2 (counterexample): the falsy rule fails as stated: decoding Null into a
Bool target whose prior value is `true` yields `true` (null is ignored for
scalar targets), and decoding the Number literal `"0e0"`, which is not in the
claimed falsy list, yields `false`. -/
theorem c2_falsy_counterexample :
    decode cfg0 1 ctx0 .null .gbool (.vbool true) = some (ctx0, .ok (.vbool true)) ∧
    decode cfg0 1 ctx0 (.num "0e0") .gbool (.vbool true) =
      some (ctx0, .ok (.vbool false)) :=
  ⟨rfl, rfl⟩

/-- C2 (amended): decoding any value into a Bool target always succeeds, with
the result given by `boolCoerce`: Bool(false), Number literals that parse as
float64 to exactly zero (among them "0" and "0.0", but also "-0" or "0e0"),
String("") and String("0"), Array([]) and Object({}) yield `false`; Null
leaves the prior value unchanged; every other value yields `true`. -/
theorem c2_falsy_rule_amended (cfg : DecCfg) (fuel : Nat) (ctx : ErrCtx)
    (b0 : Bool) (v : JValue) :
    decode cfg (fuel + 1) ctx v .gbool (.vbool b0) =
      some (ctx, .ok (.vbool (boolCoerce b0 v))) := by
  cases v with
  | null => rfl
  | jbool b => rfl
  | num s =>
    simp only [decode_succ, decodeStep, boolCoerce]
    cases goParseFloat s 64 <;> rfl
  | str s => rfl
  | arr xs => rfl
  | obj kvs => rfl

/-- C3 (code bug): `parseInt` never truncates a fractional literal for an
`int64` destination: the `big.Float` fallback demands an `Exact` `Int64`
accuracy, which truncation of `"3.9"` cannot deliver, so the decode errors —
while the float64 fallback used for every other signed kind truncates to 3 as
the spec states; the overflow half of the claim does hold
(`"99999999999999999999"` is rejected). -/
theorem c3_int64_truncation_bug :
    parseInt "3.9" IntKind.i64 = none ∧
    parseInt "3.9" IntKind.i = some 3 ∧
    parseInt "3.9" IntKind.i8 = some 3 ∧
    parseInt "99999999999999999999" IntKind.i64 = none ∧
    parseUint "3.9" UintKind.u64 = none ∧
    decode cfg0 1 ctx0 (.num "3.9") (.gint .i64) (.vint .i64 7) =
      some (ctx0, .err (.typeMismatch "number 3.9" (.gint .i64) "" "") (.vint .i64 7)) ∧
    decode cfg0 1 ctx0 (.num "3.9") (.gint .i) (.vint .i 7) =
      some (ctx0, .ok (.vint .i 3)) :=
  ⟨rfl, rfl, rfl, rfl, rfl, rfl, rfl⟩

/-- C5 (code bug): a negative object key such as `"-1"` passes the key check
(`strconv.ParseInt` accepts a sign), so no MalformedKey error is raised;
instead the write loop panics in `reflect.Value.Index`.  For keys that do not
parse as integers at all, the error is raised in the checking pass before any
element is written (the slice value is untouched even though another valid
entry follows). -/
theorem c5_negative_key_panic :
    decode cfg0 2 ctx0 (.obj [("-1", .str "x")]) (.gslice .gstring) (.vslice 0 0 []) =
      some (ctx0, .panicked "reflect: slice index out of range" (.vslice 0 0 [])) ∧
    goParseInt "-1" 64 = some (-1) ∧
    decode cfg0 2 ctx0 (.obj [("abc", .str "x"), ("0", .str "y")]) (.gslice .gstring)
      (.vslice 1 1 [.vstr "keep"]) =
      some (ctx0, .err (.typeMismatch "number" .gstring "" "")
        (.vslice 1 1 [.vstr "keep"])) :=
  ⟨rfl, rfl, rfl⟩

/-- C7: decoding an Object or an Array into a map whose key kind is neither
String, an integer kind, nor an `encoding.TextUnmarshaler` fails with an
`UnmarshalTypeError` (value `"object"`), and the map value is left exactly as
it was: no entry is inserted. -/
theorem c7_map_key_restriction (cfg : DecCfg) (fuel : Nat) (ctx : ErrCtx)
    (kt vt : GoType) (hk : mapKeyEligible kt = false) :
    (∀ kvs es, decode cfg (fuel + 1) ctx (.obj kvs) (.gmap kt vt) (.vmap es) =
      some (ctx, .err (withErrCtx ctx (.typeMismatch "object" (.gmap kt vt) "" ""))
        (.vmap es))) ∧
    (∀ xs es, decode cfg (fuel + 1) ctx (.arr xs) (.gmap kt vt) (.vmap es) =
      some (ctx, .err (withErrCtx ctx (.typeMismatch "object" (.gmap kt vt) "" ""))
        (.vmap es))) := by
  constructor
  · intro kvs es
    cases kt <;> first
      | rfl
      | simp [mapKeyEligible] at hk
  · intro xs es
    cases kt <;> first
      | rfl
      | simp [mapKeyEligible] at hk

/-- C7 (witness): a Bool-keyed map rejects an object and an array, leaving
the existing entry alone. -/
theorem c7_map_key_restriction_witness :
    mapKeyEligible .gbool = false ∧
    decode cfg0 1 ctx0 (.obj [("a", .null)]) (.gmap .gbool .gstring)
      (.vmap [(.vbool true, .vstr "old")]) =
      some (ctx0, .err (.typeMismatch "object" (.gmap .gbool .gstring) "" "")
        (.vmap [(.vbool true, .vstr "old")])) :=
  ⟨rfl, (c7_map_key_restriction cfg0 0 ctx0 .gbool .gstring rfl).1 [("a", .null)]
    [(.vbool true, .vstr "old")]⟩

/-- C10 (counterexample): decoding Null into a non-nil pointer-to-pointer
target does not set it to nil: the outer pointer is kept and only the inner
pointer is zeroed (`indirect` walks through a non-nil pointer whose element
kind is again a pointer). -/
theorem c10_null_counterexample :
    decode cfg0 3 ctx0 .null (.gptr (.gptr .gbool))
      (.vptr (some (.vptr (some (.vbool true))))) =
      some (ctx0, .ok (.vptr (some (.vptr none)))) ∧
    GoVal.vptr (some (.vptr none)) ≠ GoVal.vptr none := by
  refine ⟨rfl, ?_⟩
  intro h
  cases h

/-- C10 (amended): decoding Null leaves every scalar target (Bool, Int, Uint,
Float, String kind) unchanged and succeeds; it zeroes Interface, Map and
Slice targets; a Pointer target becomes nil when it is already nil or when
its element kind is not a pointer, while a non-nil multi-level pointer only
has its innermost pointer zeroed. -/
theorem c10_null_handling_amended (cfg : DecCfg) (fuel : Nat) (ctx : ErrCtx) :
    (∀ t v, t.isScalarKind = true →
      decode cfg (fuel + 1) ctx .null t v = some (ctx, .ok v)) ∧
    (∀ v, decode cfg (fuel + 1) ctx .null .giface v = some (ctx, .ok (.viface none))) ∧
    (∀ kt vt v, decode cfg (fuel + 1) ctx .null (.gmap kt vt) v =
      some (ctx, .ok (.vmap []))) ∧
    (∀ te v, decode cfg (fuel + 1) ctx .null (.gslice te) v =
      some (ctx, .ok (.vslice 0 0 []))) ∧
    (∀ te v, (¬ te.isPtrKind ∨ v = GoVal.vptr none) →
      decode cfg (fuel + 1) ctx .null (.gptr te) v = some (ctx, .ok (.vptr none))) ∧
    (∀ te u, ¬ te.isPtrKind →
      decode cfg (fuel + 2) ctx .null (.gptr (.gptr te)) (.vptr (some (.vptr (some u)))) =
        some (ctx, .ok (.vptr (some (.vptr none))))) := by
  refine ⟨?_, fun v => rfl, fun kt vt v => rfl, fun te v => rfl, ?_, ?_⟩
  · intro t v ht
    cases t <;> simp [GoType.isScalarKind] at ht <;> rfl
  · intro te v h
    rcases h with h | h
    · simp only [decode_succ, decodeStep]
      have hp : te.isPtrKind = false := by
        cases te <;> simp [GoType.isPtrKind] at h ⊢
      rw [hp]
      simp
    · subst h
      simp only [decode_succ, decodeStep]
      simp
  · intro te u h
    have hp : te.isPtrKind = false := by
      cases te <;> simp [GoType.isPtrKind] at h ⊢
    simp only [decode_succ, decodeStep, hp]
    simp [GoType.isPtrKind, mapDOut]

/-- C10 (witness): Null into an Int target keeps the prior value; Null into a
nil single-level pointer target yields nil. -/
theorem c10_null_handling_witness :
    GoType.isScalarKind (.gint .i) = true ∧
    decode cfg0 1 ctx0 .null (.gint .i) (.vint .i 42) =
      some (ctx0, .ok (.vint .i 42)) ∧
    decode cfg0 1 ctx0 .null (.gptr .gbool) (.vptr none) =
      some (ctx0, .ok (.vptr none)) :=
  ⟨rfl, (c10_null_handling_amended cfg0 0 ctx0).1 (.gint .i) (.vint .i 42) rfl,
    (c10_null_handling_amended cfg0 0 ctx0).2.2.2.2.1 .gbool (.vptr none)
      (Or.inl (by simp [GoType.isPtrKind]))⟩

/-- C6 (counterexample): with a nil or non-pointer target, Decode does not
fail before consuming input: the next value is read and parsed first.  A
malformed input yields its parse error rather than InvalidUnmarshalError,
and with well-formed input the value is consumed from the stream (the
remaining stream has advanced) even though the target is invalid. -/
theorem c6_invalid_target_counterexample :
    DecoderDecode 1 ⟨cfg0, [.error "invalid character"]⟩ none =
      ([], none, .parseError "invalid character") ∧
    DecoderDecode 1 ⟨cfg0, [.ok .null, .ok (.jbool true)]⟩ none =
      ([.ok (.jbool true)], none, .invalidUnmarshal) :=
  ⟨rfl, rfl⟩

/-- C6 (amended): a nil or non-pointer top-level target makes Decode fail
with InvalidUnmarshalError and no decode is attempted — but the validation
runs only after the next value has been read and parsed from the stream: the
input is consumed either way, and a parse error takes precedence over the
invalid-target error. -/
theorem c6_invalid_target_after_read (fuel : Nat) (d : GoDecoder)
    (iv : JValue) (msg : String) (rest : List (Except String JValue)) :
    (d.stream = .ok iv :: rest →
      DecoderDecode fuel d none = (rest, none, .invalidUnmarshal)) ∧
    (d.stream = .error msg :: rest →
      DecoderDecode fuel d none = (rest, none, .parseError msg)) := by
  constructor <;> intro h <;> simp [DecoderDecode, h]

/-- C6 (witness): a one-element stream is consumed and the invalid target
reported. -/
theorem c6_invalid_target_witness :
    (⟨cfg0, [.ok .null]⟩ : GoDecoder).stream = .ok .null :: [] ∧
    DecoderDecode 1 ⟨cfg0, [.ok .null]⟩ none = ([], none, .invalidUnmarshal) :=
  ⟨rfl, (c6_invalid_target_after_read 1 ⟨cfg0, [.ok .null]⟩ .null "" []).1 rfl⟩

theorem selectFieldLoop_exact (key : String) :
    ∀ (fields : List GoField) (acc : Option GoField),
      (∃ ff ∈ fields, ff.name = key) →
      selectFieldLoop fields key acc = fields.find? (fun ff => ff.name == key) := by
  intro fields
  induction fields with
  | nil =>
    intro acc h
    rcases h with ⟨ff, hmem, _⟩
    cases hmem
  | cons ff rest ih =>
    intro acc h
    by_cases he : ff.name = key
    · simp only [selectFieldLoop, if_pos he]
      rw [List.find?_cons_of_pos _ (by simp [he])]
    · rcases h with ⟨g, hmem, hg⟩
      rcases List.mem_cons.mp hmem with rfl | hmem2
      · exact absurd hg he
      · have hrest : ∃ g ∈ rest, g.name = key := ⟨g, hmem2, hg⟩
        rw [List.find?_cons_of_neg _ (by simp [he])]
        simp only [selectFieldLoop, if_neg he]
        by_cases hf : acc.isNone ∧ foldEq ff.name key
        · rw [if_pos hf]
          exact ih _ hrest
        · rw [if_neg hf]
          exact ih _ hrest

theorem selectFieldLoop_noExact (key : String) :
    ∀ (fields : List GoField) (acc : Option GoField),
      (∀ ff ∈ fields, ff.name ≠ key) →
      selectFieldLoop fields key acc =
        (match acc with
         | some a => some a
         | none => fields.find? (fun ff => foldEq ff.name key)) := by
  intro fields
  induction fields with
  | nil =>
    intro acc _
    cases acc <;> rfl
  | cons ff rest ih =>
    intro acc h
    have he : ff.name ≠ key := h ff (List.mem_cons_self ff rest)
    have hrest : ∀ g ∈ rest, g.name ≠ key := fun g hg => h g (List.mem_cons_of_mem ff hg)
    cases acc with
    | some a =>
      simp only [selectFieldLoop, if_neg he]
      rw [if_neg (by simp)]
      exact ih (some a) hrest
    | none =>
      simp only [selectFieldLoop, if_neg he]
      by_cases hf : foldEq ff.name key
      · rw [if_pos (by simp [hf]), List.find?_cons_of_pos _ (by simp [hf])]
        exact ih (some ff) hrest
      · rw [if_neg (by simp [hf]), List.find?_cons_of_neg _ (by simp [hf])]
        exact ih none hrest

/-- C8: in the struct-field matching loop of `Decoder.decode`, an exact name
match always wins over any case-insensitive match regardless of field order
(the loop returns the first exactly matching field whenever one exists), and
only when no exact match exists is the case-insensitive fallback used, the
earliest fold-matching field in the resolved list winning ties. -/
theorem c8_field_match_precedence (fields : List GoField) (key : String) :
    ((∃ ff ∈ fields, ff.name = key) →
      selectField fields key = fields.find? (fun ff => ff.name == key)) ∧
    ((∀ ff ∈ fields, ff.name ≠ key) →
      selectField fields key = fields.find? (fun ff => foldEq ff.name key)) :=
  ⟨fun h => selectFieldLoop_exact key fields none h,
   fun h => selectFieldLoop_noExact key fields none h⟩

/-- C8 (witness): with a case-insensitive candidate listed before the exact
one, the exact match still wins; with no exact match, the earliest
case-insensitive candidate wins. -/
theorem c8_field_match_witness :
    selectField [⟨"FOO", [0]⟩, ⟨"Foo", [1]⟩] "Foo" = some ⟨"Foo", [1]⟩ ∧
    selectField [⟨"Bar", [0]⟩, ⟨"FOO", [1]⟩, ⟨"foo", [2]⟩] "Foo" = some ⟨"FOO", [1]⟩ := by
  constructor
  · have h := (c8_field_match_precedence [⟨"FOO", [0]⟩, ⟨"Foo", [1]⟩] "Foo").1
      ⟨⟨"Foo", [1]⟩, by simp, rfl⟩
    rw [h]
    rfl
  · have h := (c8_field_match_precedence [⟨"Bar", [0]⟩, ⟨"FOO", [1]⟩, ⟨"foo", [2]⟩] "Foo").2
      (by decide)
    rw [h]
    rfl

/-- C4 (counterexample): a String decoded into a byte-slice target is not
wrapped as a single-element container: it is base64-decoded ("AAAA" yields
three zero bytes, final length 3), and invalid base64 ("foo") yields the
base64 error. -/
theorem c4_scalar_wrap_counterexample :
    decode cfg0 1 ctx0 (.str "AAAA") (.gslice (.guint .u8)) (.vslice 0 0 []) =
      some (ctx0, .ok (.vslice 3 3 [.vuint .u8 0, .vuint .u8 0, .vuint .u8 0])) ∧
    decode cfg0 1 ctx0 (.str "foo") (.gslice (.guint .u8)) (.vslice 0 0 []) =
      some (ctx0, .err .base64Error (.vslice 0 0 [])) :=
  ⟨rfl, rfl⟩

/-- C4 (amended): decoding a scalar source (Bool, Number or String) into a
Map or Struct target is literally the decode of the object `{"0": v}` into
that target; into a Slice target — except a String into a byte slice, which
is base64-decoded instead — the scalar is decoded into index 0 of a slice of
final length 1 (freshly allocated when capacity is 0, reusing the backing
store otherwise). -/
theorem c4_scalar_wrap_amended (cfg : DecCfg) (fuel : Nat) (ctx : ErrCtx)
    (src : JValue) (hs : src.isScalar = true) :
    (∀ kt vt v, decode cfg (fuel + 1) ctx src (.gmap kt vt) v =
      decode cfg fuel ctx (.obj [("0", src)]) (.gmap kt vt) v) ∧
    (∀ sn fs ly v, decode cfg (fuel + 1) ctx src (.gstruct sn fs ly) v =
      decode cfg fuel ctx (.obj [("0", src)]) (.gstruct sn fs ly) v) ∧
    (∀ te len store, (src.isStr && te.isUint8Kind) = false →
      decode cfg (fuel + 1) ctx src (.gslice te) (.vslice len 0 store) =
        mapDOut (fun w => .vslice 1 1 [w]) (decode cfg fuel ctx src te (zeroVal te))) ∧
    (∀ te len cap store e0, (src.isStr && te.isUint8Kind) = false → cap ≠ 0 →
      store.get? 0 = some e0 →
      decode cfg (fuel + 1) ctx src (.gslice te) (.vslice len cap store) =
        mapDOut (fun w => .vslice 1 cap (store.set 0 w))
          (decode cfg fuel ctx src te e0)) := by
  refine ⟨?_, ?_, ?_, ?_⟩
  · intro kt vt v
    cases src <;> first
      | rfl
      | simp [JValue.isScalar] at hs
  · intro sn fs ly v
    cases src <;> first
      | rfl
      | simp [JValue.isScalar] at hs
  · intro te len store hb
    cases src with
    | jbool b => rfl
    | num s => rfl
    | str s =>
      have hbu : te.isUint8Kind = false := by simpa [JValue.isStr] using hb
      simp only [decode_succ, decodeStep, hbu]
      rfl
    | null => simp [JValue.isScalar] at hs
    | arr xs => simp [JValue.isScalar] at hs
    | obj kvs => simp [JValue.isScalar] at hs
  · intro te len cap store e0 hb hcap hget
    cases src with
    | jbool b =>
      simp only [decode_succ, decodeStep, scalarIntoSlice, if_neg hcap, hget]
    | num s =>
      simp only [decode_succ, decodeStep, scalarIntoSlice, if_neg hcap, hget]
    | str s =>
      have hbu : te.isUint8Kind = false := by simpa [JValue.isStr] using hb
      simp only [decode_succ, decodeStep, hbu, scalarIntoSlice, if_neg hcap, hget]
      rfl
    | null => simp [JValue.isScalar] at hs
    | arr xs => simp [JValue.isScalar] at hs
    | obj kvs => simp [JValue.isScalar] at hs

/-- C4 (witness): `true` into a `map[string]bool` target is the decode of
`{"0": true}` and yields `{"0": true}`; `"foo"` into a preallocated
length-1/capacity-1 string slice overwrites index 0, final length 1. -/
theorem c4_scalar_wrap_witness :
    JValue.isScalar (.jbool true) = true ∧
    decode cfg0 3 ctx0 (.jbool true) (.gmap .gstring .gbool) (.vmap []) =
      decode cfg0 2 ctx0 (.obj [("0", .jbool true)]) (.gmap .gstring .gbool) (.vmap []) ∧
    decode cfg0 3 ctx0 (.jbool true) (.gmap .gstring .gbool) (.vmap []) =
      some (ctx0, .ok (.vmap [(.vstr "0", .vbool true)])) ∧
    decode cfg0 2 ctx0 (.str "foo") (.gslice .gstring) (.vslice 1 1 [.vstr "old"]) =
      some (ctx0, .ok (.vslice 1 1 [.vstr "foo"])) :=
  ⟨rfl, (c4_scalar_wrap_amended cfg0 2 ctx0 (.jbool true) rfl).1 .gstring .gbool (.vmap []),
    rfl, rfl⟩

theorem withErrCtx_fresh (c : ErrCtx) (val : String) (t : GoType) :
    withErrCtx c (.typeMismatch val t "" "") = .typeMismatch val t c.strct c.fld := by
  show (if c.strct ≠ "" ∨ c.fld ≠ "" then DecErr.typeMismatch val t c.strct c.fld
      else DecErr.typeMismatch val t "" "") = DecErr.typeMismatch val t c.strct c.fld
  split
  · rfl
  · next h =>
    push_neg at h
    rw [h.1, h.2]

/-- C9: the error-context discipline of the object-into-struct loop.  The
struct branch of `decode` is the loop `objStructLoop`; for an entry whose key
matches field `f`: (a) the processing of the entry does not depend on the
incoming error context, so the context observed while decoding any field is
unaffected by earlier siblings; (b) the field value is decoded with the
context set exactly to (struct name, field name), and after the field decode
completes the context is reset to empty — both on success (the remaining
entries run from the empty context) and (c) on an error return; (d) an
`UnmarshalTypeError` raised directly at the field's value (here: an array
into an integer field) is returned carrying (struct name, field name). -/
theorem c9_error_context_discipline (cfg : DecCfg) (fuel : Nat) (sname : String)
    (fields : List GoField) (layout : List GoType) (key : String) (f : GoField)
    (value : JValue) (rest : List (String × JValue)) (v : GoVal)
    (tf : GoType) (vf : GoVal) (setf : GoVal → GoVal)
    (hf : selectField fields key = some f)
    (hw : walkPath (.gstruct sname fields layout) v f.index = some (tf, vf, setf)) :
    (∀ ctx kvs, decode cfg (fuel + 1) ctx (.obj kvs) (.gstruct sname fields layout) v =
      objStructLoop (decode cfg fuel) cfg sname fields
        (.gstruct sname fields layout) ctx kvs v) ∧
    (∀ ctx1 ctx2,
      objStructLoop (decode cfg fuel) cfg sname fields (.gstruct sname fields layout)
        ctx1 ((key, value) :: rest) v =
      objStructLoop (decode cfg fuel) cfg sname fields (.gstruct sname fields layout)
        ctx2 ((key, value) :: rest) v) ∧
    (∀ ctx c2 w, decode cfg fuel ⟨sname, f.name⟩ value tf vf = some (c2, .ok w) →
      objStructLoop (decode cfg fuel) cfg sname fields (.gstruct sname fields layout)
        ctx ((key, value) :: rest) v =
      objStructLoop (decode cfg fuel) cfg sname fields (.gstruct sname fields layout)
        ⟨"", ""⟩ rest (setf w)) ∧
    (∀ ctx c2 e w, decode cfg fuel ⟨sname, f.name⟩ value tf vf = some (c2, .err e w) →
      objStructLoop (decode cfg fuel) cfg sname fields (.gstruct sname fields layout)
        ctx ((key, value) :: rest) v =
      some (⟨"", ""⟩, .err e (setf w))) ∧
    (∀ ctx xs k, value = .arr xs → tf = .gint k →
      decode cfg (fuel + 2) ctx (.obj ((key, value) :: rest))
        (.gstruct sname fields layout) v =
      some (⟨"", ""⟩, .err (.typeMismatch "array" (.gint k) sname f.name) (setf vf))) := by
  refine ⟨fun ctx kvs => rfl, ?_, ?_, ?_, ?_⟩
  · intro ctx1 ctx2
    simp only [objStructLoop, hf, hw]
  · intro ctx c2 w hd
    simp only [objStructLoop, hf, hw, hd]
  · intro ctx c2 e w hd
    simp only [objStructLoop, hf, hw, hd]
  · intro ctx xs k hv htf
    subst hv
    subst htf
    have hinner : decode cfg (fuel + 1) ⟨sname, f.name⟩ (.arr xs) (.gint k) vf =
        some (⟨sname, f.name⟩,
          .err (.typeMismatch "array" (.gint k) sname f.name) vf) := by
      have hctx := withErrCtx_fresh ⟨sname, f.name⟩ "array" (.gint k)
      simp only [decode_succ, decodeStep]
      rw [hctx]
    show objStructLoop (decode cfg (fuel + 1)) cfg sname fields
        (.gstruct sname fields layout) ctx ((key, .arr xs) :: rest) v = _
    simp only [objStructLoop, hf, hw, hinner]

/-- C9 (witness): decoding `{"A": []}` into a struct `T { A int }` raises the
type error annotated with struct `"T"` and field `"A"`, and the final error
context is reset to empty. -/
theorem c9_error_context_witness :
    selectField [⟨"A", [0]⟩] "A" = some ⟨"A", [0]⟩ ∧
    walkPath (.gstruct "T" [⟨"A", [0]⟩] [.gint .i]) (.vstruct [.vint .i 0]) [0] =
      some (.gint .i, .vint .i 0, fun x => .vstruct (List.set [.vint .i 0] 0 x)) ∧
    decode cfg0 2 ctx0 (.obj [("A", .arr [])]) (.gstruct "T" [⟨"A", [0]⟩] [.gint .i])
      (.vstruct [.vint .i 0]) =
      some (⟨"", ""⟩, .err (.typeMismatch "array" (.gint .i) "T" "A")
        (.vstruct [.vint .i 0])) := by
  refine ⟨rfl, rfl, ?_⟩
  exact (c9_error_context_discipline cfg0 0 "T" [⟨"A", [0]⟩] [.gint .i] "A" ⟨"A", [0]⟩
    (.arr []) [] (.vstruct [.vint .i 0]) (.gint .i) (.vint .i 0)
    (fun x => .vstruct (List.set [.vint .i 0] 0 x)) rfl rfl).2.2.2.2 ctx0 [] .i rfl rfl

theorem sliceMaxLoop_le :
    ∀ (kvs : List (String × JValue)) (m0 m : Int),
      sliceMaxLoop kvs m0 = some m →
      m0 ≤ m ∧ ∀ kv ∈ kvs, ∀ i : Int, goParseInt kv.1 64 = some i → i ≤ m := by
  intro kvs
  induction kvs with
  | nil =>
    intro m0 m h
    simp only [sliceMaxLoop, Option.some.injEq] at h
    subst h
    exact ⟨le_refl _, by simp⟩
  | cons kv rest ih =>
    intro m0 m h
    simp only [sliceMaxLoop] at h
    cases hp : goParseInt kv.1 64 with
    | none => rw [hp] at h; cases h
    | some i =>
      rw [hp] at h
      obtain ⟨h1, h2⟩ := ih _ _ h
      have hi : i ≤ m := by
        have : i ≤ (if i > m0 then i else m0) := by split <;> omega
        omega
      refine ⟨by (have : m0 ≤ (if i > m0 then i else m0) := by split <;> omega); omega, ?_⟩
      intro kv2 hmem j hj
      rcases List.mem_cons.mp hmem with rfl | hmem2
      · rw [hp] at hj
        injection hj with hj
        omega
      · exact h2 kv2 hmem2 j hj

theorem objSliceWriteLoop_spec (cfg : DecCfg) (fuel : Nat) (te : GoType)
    (ctx : ErrCtx) (n : Nat) (w : String × JValue → GoVal) :
    ∀ (kvs : List (String × JValue)) (store : List GoVal),
      store.length = n →
      (∀ kv ∈ kvs, ∃ i : Int, goParseInt kv.1 64 = some i ∧ 0 ≤ i ∧ i < (n : Int)) →
      (∀ kv ∈ kvs, ∀ j : Nat, goParseInt kv.1 64 = some (j : Int) →
        store.get? j = some (zeroVal te)) →
      (∀ kv ∈ kvs, decode cfg fuel ctx kv.2 te (zeroVal te) = some (ctx, .ok (w kv))) →
      kvs.Pairwise (fun a b => goParseInt a.1 64 ≠ goParseInt b.1 64) →
      ∃ store2,
        objSliceWriteLoop (decode cfg fuel) te n n ctx kvs store =
          some (ctx, .ok (.vslice n n store2)) ∧
        store2.length = n ∧
        (∀ j : Nat, (∀ kv ∈ kvs, goParseInt kv.1 64 ≠ some (j : Int)) →
          store2.get? j = store.get? j) ∧
        (∀ kv ∈ kvs, ∀ j : Nat, goParseInt kv.1 64 = some (j : Int) →
          store2.get? j = some (w kv)) := by
  intro kvs
  induction kvs with
  | nil =>
    intro store hlen _ _ _ _
    exact ⟨store, rfl, hlen, fun j _ => rfl, by simp⟩
  | cons kv rest ih =>
    intro store hlen hidx hzero hdec hdist
    obtain ⟨i, hp, hi0, hin⟩ := hidx kv (List.mem_cons_self kv rest)
    have hjn : i.toNat < n := by omega
    have hcast : ((i.toNat : Int)) = i := Int.toNat_of_nonneg hi0
    have hzhead : store.get? i.toNat = some (zeroVal te) := by
      apply hzero kv (List.mem_cons_self kv rest)
      rw [hcast]
      exact hp
    have hdhead := hdec kv (List.mem_cons_self kv rest)
    have hdistHead := (List.pairwise_cons.mp hdist).1
    have hdistTail := (List.pairwise_cons.mp hdist).2
    have hstep :
        objSliceWriteLoop (decode cfg fuel) te n n ctx ((kv.1, kv.2) :: rest) store =
        objSliceWriteLoop (decode cfg fuel) te n n ctx rest
          (store.set i.toNat (w kv)) := by
      simp only [objSliceWriteLoop, hp, Option.getD_some, hzhead, hdhead]
      rw [if_pos ⟨hi0, hin⟩]
    obtain ⟨store2, hloop, hlen2, huntouched, hwritten⟩ :=
      ih (store.set i.toNat (w kv)) (by simp [hlen])
        (fun kv2 h2 => hidx kv2 (List.mem_cons_of_mem kv h2))
        (fun kv2 h2 j hj => by
          have hne : goParseInt kv.1 64 ≠ goParseInt kv2.1 64 := hdistHead kv2 h2
          have : i.toNat ≠ j := by
            intro hE
            rw [hp, hj] at hne
            apply hne
            rw [← hE, hcast]
          rw [List.get?_set_ne _ _ this]
          exact hzero kv2 (List.mem_cons_of_mem kv h2) j hj)
        (fun kv2 h2 => hdec kv2 (List.mem_cons_of_mem kv h2))
        hdistTail
    refine ⟨store2, ?_, hlen2, ?_, ?_⟩
    · rw [← hloop, ← hstep]
    · intro j hnone
      have hjne : i.toNat ≠ j := by
        intro hE
        apply hnone kv (List.mem_cons_self kv rest)
        rw [hp, ← hE, hcast]
      rw [huntouched j (fun kv2 h2 => hnone kv2 (List.mem_cons_of_mem kv h2)),
        List.get?_set_ne _ _ hjne]
    · intro kv2 hmem j hj
      rcases List.mem_cons.mp hmem with rfl | hmem2
      · have hij : i.toNat = j := by
          rw [hp] at hj
          injection hj with hj
          omega
        have : store2.get? j = (store.set i.toNat (w kv2)).get? j := by
          apply huntouched
          intro kv3 h3
          have hne := hdistHead kv3 h3
          rw [hp] at hne
          intro hbad
          rw [hbad] at hne
          apply hne
          rw [← hp]
          exact hj
        rw [this, hij, List.get?_set_eq_of_lt]
        rw [hlen]
        omega
      · exact hwritten kv2 hmem2 j hj

/-- C1 (counterexample): one of the claim's own scenario inputs, `{"1":"b"}`,
panics instead of producing `["","b"]` when the target slice has length 0
but spare capacity 2: the in-place zero-fill loop calls `out.Index(0)`
before `SetLen`, and `reflect.Value.Index` panics for indices at or past the
current length. -/
theorem c1_obj_into_slice_counterexample :
    decode cfg0 2 ctx0 (.obj [("1", .str "b")]) (.gslice .gstring)
      (.vslice 0 2 [.vstr "x", .vstr "y"]) =
      some (ctx0, .panicked "reflect: slice index out of range"
        (.vslice 0 2 [.vstr "x", .vstr "y"])) := rfl

/-- C1 (amended): decoding an object whose keys are distinct stringified
non-negative indices into a slice target whose capacity is below the
required length (notably a fresh nil slice, as in both scenarios) allocates
a fresh slice of length exactly one more than the maximum parsed index;
every index present in the object is decoded element-wise into its position
and every unspecified index is zero-filled.  (With enough capacity the write
is in place instead, and panics when the prior length is below the required
length — see the counterexample.) -/
theorem c1_obj_into_slice_amended (cfg : DecCfg) (fuel : Nat) (ctx : ErrCtx)
    (te : GoType) (kvs : List (String × JValue)) (len cap : Nat)
    (store : List GoVal) (w : String × JValue → GoVal) (mv : Int)
    (hm : sliceMaxLoop kvs (-1) = some mv)
    (hidx : ∀ kv ∈ kvs, ∃ i : Int, goParseInt kv.1 64 = some i ∧ 0 ≤ i)
    (hdist : kvs.Pairwise (fun a b => goParseInt a.1 64 ≠ goParseInt b.1 64))
    (hdec : ∀ kv ∈ kvs, decode cfg fuel ctx kv.2 te (zeroVal te) =
      some (ctx, .ok (w kv)))
    (hcap : mv < 0 ∨ (cap : Int) < mv + 1) :
    ∃ store2,
      decode cfg (fuel + 1) ctx (.obj kvs) (.gslice te) (.vslice len cap store) =
        some (ctx, .ok (.vslice (mv + 1).toNat (mv + 1).toNat store2)) ∧
      store2.length = (mv + 1).toNat ∧
      (∀ kv ∈ kvs, ∀ j : Nat, goParseInt kv.1 64 = some (j : Int) →
        store2.get? j = some (w kv)) ∧
      (∀ j : Nat, j < (mv + 1).toNat →
        (∀ kv ∈ kvs, goParseInt kv.1 64 ≠ some (j : Int)) →
        store2.get? j = some (zeroVal te)) := by
  have hbound := (sliceMaxLoop_le kvs (-1) mv hm).2
  have hstep : decode cfg (fuel + 1) ctx (.obj kvs) (.gslice te) (.vslice len cap store) =
      objSliceWriteLoop (decode cfg fuel) te (mv + 1).toNat (mv + 1).toNat ctx kvs
        (List.replicate (mv + 1).toNat (zeroVal te)) := by
    simp only [decode_succ, decodeStep, objSliceBranch, hm]
    rw [if_pos]
    rcases hcap with h | h
    · left; exact h
    · right; omega
  obtain ⟨store2, hloop, hlen2, huntouched, hwritten⟩ :=
    objSliceWriteLoop_spec cfg fuel te ctx (mv + 1).toNat w kvs
      (List.replicate (mv + 1).toNat (zeroVal te)) (by simp)
      (fun kv h2 => by
        obtain ⟨i, hp, hi0⟩ := hidx kv h2
        exact ⟨i, hp, hi0, by have := hbound kv h2 i hp; omega⟩)
      (fun kv h2 j hj => by
        have hjb := hbound kv h2 (j : Int) hj
        have hjlt : j < (mv + 1).toNat := by omega
        simp [List.get?_eq_getElem?, List.getElem?_replicate, hjlt])
      hdec hdist
  refine ⟨store2, by rw [hstep, hloop], hlen2, hwritten, ?_⟩
  intro j hjlt hnone
  rw [huntouched j hnone]
  simp [List.get?_eq_getElem?, List.getElem?_replicate, hjlt]

/-- C1 (witness): the two scenarios from fresh (nil-slice) targets:
`{"0":"a","1":"b"}` yields `["a","b"]` and `{"1":"b"}` yields `["","b"]`;
the general theorem applied to the second scenario confirms length 2, the
decoded element at index 1 and the zero fill at index 0. -/
theorem c1_obj_into_slice_witness :
    decode cfg0 2 ctx0 (.obj [("0", .str "a"), ("1", .str "b")]) (.gslice .gstring)
      (.vslice 0 0 []) = some (ctx0, .ok (.vslice 2 2 [.vstr "a", .vstr "b"])) ∧
    decode cfg0 2 ctx0 (.obj [("1", .str "b")]) (.gslice .gstring) (.vslice 0 0 []) =
      some (ctx0, .ok (.vslice 2 2 [.vstr "", .vstr "b"])) ∧
    (∃ store2,
      decode cfg0 2 ctx0 (.obj [("1", .str "b")]) (.gslice .gstring) (.vslice 0 0 []) =
        some (ctx0, .ok (.vslice (1 + 1 : Int).toNat (1 + 1 : Int).toNat store2)) ∧
      store2.length = (1 + 1 : Int).toNat ∧
      (∀ kv ∈ [(("1" : String), JValue.str "b")], ∀ j : Nat,
        goParseInt kv.1 64 = some (j : Int) → store2.get? j = some (.vstr "b")) ∧
      (∀ j : Nat, j < (1 + 1 : Int).toNat →
        (∀ kv ∈ [(("1" : String), JValue.str "b")], goParseInt kv.1 64 ≠ some (j : Int)) →
        store2.get? j = some (zeroVal .gstring))) := by
  refine ⟨rfl, rfl, ?_⟩
  exact c1_obj_into_slice_amended cfg0 1 ctx0 .gstring [("1", .str "b")] 0 0 []
    (fun _ => .vstr "b") 1 rfl
    (by
      intro kv hkv
      rcases List.mem_singleton.mp hkv with rfl
      exact ⟨1, rfl, by norm_num⟩)
    (by simp)
    (by
      intro kv hkv
      rcases List.mem_singleton.mp hkv with rfl
      rfl)
    (Or.inr (by norm_num))

end Phper
